import Mathlib

/-!
Shallow embedding of the bakery-system-api core (inventory depletion and
sale-note transaction engine) together with proofs about its specification.

Conventions of the embedding:
* Python `float` quantities and prices are modelled as exact rationals (`ℚ`).
* SQL dates (`validity` columns, nullable) are modelled as `Option ℕ`
  (a day number); `none` is the SQL NULL.
* A database table is a `List` of row structures; tables are semantically
  multisets, so rewriting the rows of one product in fetched order is a
  faithful model of the ORM updating those rows in place.
* An operation that opens a session, works and commits is a pure function
  `DB → Except Err DB`: `Except.error` means the exception propagated before
  `commit`, so no change was persisted (the transaction rolls back).
* `uuid4`-generated identifiers (row ids, sale codes) are passed in as
  explicit `String` parameters.
-/

namespace Bakery

/-- Error taxonomy of `app/core/errors.py`, plus `pyTypeError` for the Python
built-in `TypeError` (raised e.g. when unpacking `None`), which is not one of
the application's error classes. -/
inductive Err where
  | badRequest (detail : String)
  | conflict (detail : String)
  | notFound (detail : String)
  | unauthorized (detail : String)
  | unprocessableEntity (detail : String)
  | validationErr (field detail : String)
  | serverErr (detail : String)
  | pyTypeError (detail : String)
  deriving DecidableEq

/-- Whether an error is the NotFound class (`NotFoundError`, HTTP 404). -/
def Err.isNotFound : Err → Bool
  | .notFound _ => true
  | _ => false

/- Message constants from `app/core/constants/messages.py`. -/

def ERROR_DATABASE_PRODUCT_NOT_FOUND : String := "Produto não encontrado"

def ERROR_DATABASE_USER_NOT_FOUND : String := "Usuário não encontrado"

def ERROR_DATABASE_PRODUCT_BATCH_NOT_FOUND : String := "Lote de produto não encontrado"

def ERROR_NOT_ENOUGH_PRODUCT_IN_STOCK : String := "Produto insuficiente em estoque"

def ERROR_DATABASE_INGREDIENT_ALREADY_EXISTS : String := "Ingrediente já cadastrado"

def ERROR_DATABASE_INGREDIENT_NOT_FOUND : String := "Ingrediente não encontrado"

/-- Model of `UserModel` (`app/db/models.py`); columns not read by the verified
operations (password hash, role, timestamps) are omitted. -/
structure UserRow where
  id : String
  name : String
  phone : String
  email : String
  deriving DecidableEq

/-- Model of `ProductModel` (`app/db/models.py`); timestamp/image columns omitted. -/
structure ProductRow where
  id : String
  name : String
  priceCost : ℚ
  priceSale : ℚ
  mark : String
  description : String
  deriving DecidableEq

/-- Model of `ProductBatchModel` (`app/db/models.py`). -/
structure ProductBatchRow where
  id : String
  productId : String
  validity : Option ℕ
  quantity : ℚ
  deriving DecidableEq

/-- Model of `IngredientModel` (`app/db/models.py`); `measure` is kept as its enum
member name. -/
structure IngredientRow where
  id : String
  name : String
  measure : String
  mark : String
  description : String
  value : ℚ
  minQuantity : ℚ
  deriving DecidableEq

/-- Model of `IngredientBatchModel` (`app/db/models.py`). -/
structure IngredientBatchRow where
  id : String
  ingredientId : String
  validity : Option ℕ
  quantity : ℚ
  deriving DecidableEq

/-- Model of `SaleModel`: one sale line item, with the column set used throughout
`app/db/repositories/sale.py` and exposed by `SaleResponse`
(`app/schemas/sale.py`): id, product_id, user_id, quantity, value, is_paid,
sale_code. -/
structure SaleRow where
  id : String
  productId : String
  userId : String
  quantity : ℚ
  value : ℚ
  isPaid : Bool
  saleCode : String
  deriving DecidableEq

/-- The relational state: one list per table. -/
structure DB where
  users : List UserRow
  ingredients : List IngredientRow
  ingredientBatches : List IngredientBatchRow
  products : List ProductRow
  productBatches : List ProductBatchRow
  sales : List SaleRow
  deriving DecidableEq

/-- Query `SELECT ... FROM products WHERE id = pid` followed by `.first()`. -/
def findProduct (db : DB) (pid : String) : Option ProductRow :=
  db.products.find? (fun p => decide (p.id = pid))

/-- Query `SELECT ... FROM users WHERE id = uid` followed by `.scalar_one_or_none()`. -/
def findUser (db : DB) (uid : String) : Option UserRow :=
  db.users.find? (fun u => decide (u.id = uid))

/-- All product-batch rows owned by one product (unsorted table filter). -/
def productBatchesOf (db : DB) (pid : String) : List ProductBatchRow :=
  db.productBatches.filter (fun b => decide (b.productId = pid))

/-- Ordering `ORDER BY validity ASC` on a nullable date column: dates ascending, with
NULL ordered last (the PostgreSQL default for ASC; PostgreSQL is the
production backend configured in `app/core/settings.py`). -/
def validityLE : Option ℕ → Option ℕ → Bool
  | none, none => true
  | none, some _ => false
  | some _, none => true
  | some a, some b => decide (a ≤ b)

/-- Ordering of product batches by expiry date, as fetched in
`SaleRepository.add.local_add`. -/
def batchLE (a b : ProductBatchRow) : Prop :=
  validityLE a.validity b.validity = true

instance : DecidableRel batchLE := fun a b =>
  inferInstanceAs (Decidable (validityLE a.validity b.validity = true))

instance : IsTotal ProductBatchRow batchLE where
  total a b := by
    unfold batchLE validityLE
    rcases a.validity with _ | x <;> rcases b.validity with _ | y <;> simp
    omega

instance : IsTrans ProductBatchRow batchLE where
  trans a b c := by
    unfold batchLE validityLE
    rcases a.validity with _ | x <;> rcases b.validity with _ | y <;>
      rcases c.validity with _ | z <;> simp
    omega

/-- The batch list fetched for a sale of product `pid`:
`SELECT ... FROM products_batch WHERE product_id = pid ORDER BY validity ASC`. -/
def fetchedBatches (db : DB) (pid : String) : List ProductBatchRow :=
  List.insertionSort batchLE (productBatchesOf db pid)

/-- The batch-depletion loop of `SaleRepository.add.local_add`
(`src/app/db/repositories/sale.py`), over the fetched (expiry-ascending)
batches:

    products_sold = model.quantity
    for batch in batches:
        if products_sold <= 0: break
        if batch.quantity > products_sold:
            batch.quantity -= products_sold
            products_sold = 0
        else:
            products_sold -= batch.quantity
            batch.quantity = 0

After the `batch.quantity > products_sold` branch the Python loop continues
with `products_sold = 0` and breaks at the top of the next iteration; this is
the recursive call with `0` below. -/
def depleteBatches (productsSold : ℚ) : List ProductBatchRow → List ProductBatchRow
  | [] => []
  | b :: rest =>
    if productsSold ≤ 0 then b :: rest
    else if productsSold < b.quantity then
      { b with quantity := b.quantity - productsSold } :: depleteBatches 0 rest
    else
      { b with quantity := 0 } :: depleteBatches (productsSold - b.quantity) rest

/-- Total quantity on hand across all batches of a product:
`sum([batch.quantity for batch in batches])`. -/
def totalStock (db : DB) (pid : String) : ℚ :=
  ((productBatchesOf db pid).map (fun b => b.quantity)).sum

/-- Embedding of `SaleRepository.add.local_add`: validates product, user and batch
existence, checks total stock, runs the depletion loop and stages the updated
batch rows plus the new sale row.  The rows of the sold product are re-emitted
in fetched order next to the untouched rows (tables are multisets, see header). -/
def saleLocalAdd (db : DB) (m : SaleRow) : Except Err DB :=
  match findProduct db m.productId with
  | none => .error (.notFound ERROR_DATABASE_PRODUCT_NOT_FOUND)
  | some _ =>
    match findUser db m.userId with
    | none => .error (.notFound ERROR_DATABASE_USER_NOT_FOUND)
    | some _ =>
      match fetchedBatches db m.productId with
      | [] => .error (.notFound ERROR_DATABASE_PRODUCT_BATCH_NOT_FOUND)
      | b :: bs =>
        if ((b :: bs).map (fun x => x.quantity)).sum < m.quantity then
          .error (.notFound ERROR_NOT_ENOUGH_PRODUCT_IN_STOCK)
        else
          .ok { db with
                productBatches :=
                  depleteBatches m.quantity (b :: bs)
                    ++ db.productBatches.filter
                        (fun x => decide (¬ x.productId = m.productId)),
                sales := m :: db.sales }

/-- Embedding of `SaleRepository.add` on a single `SaleModel`: `local_add` then `commit`. -/
def saleRepoAdd (db : DB) (m : SaleRow) : Except Err DB :=
  saleLocalAdd db m

/-- Embedding of `SaleRepository.add` on a `list[SaleModel]`: every `local_add` is staged
in the same session and a single `commit` runs at the end, so an error
anywhere rolls back the whole list. -/
def saleRepoAddList : DB → List SaleRow → Except Err DB
  | db, [] => .ok db
  | db, m :: ms =>
    match saleLocalAdd db m with
    | .error e => .error e
    | .ok db' => saleRepoAddList db' ms

/-- Commit/rollback view of a transactional operation: on error the persisted
state is the original one. -/
def runTxn (db : DB) (r : Except Err DB) : DB × Option Err :=
  match r with
  | .error e => (db, some e)
  | .ok db' => (db', none)

/-- Model of `SaleRequest` (`app/schemas/sale.py`): one line item of a checkout. -/
structure SaleRequest where
  productId : String
  userId : String
  quantity : ℚ
  deriving DecidableEq

/-- Embedding of `SaleRepository.map_request_to_model`: resolves the product, fixes
`value = product.price_sale * request.quantity` into the new `SaleModel`
(`is_paid` defaults to false); the generated row id and the checkout's sale
code are passed in explicitly. -/
def mapRequestToModel (db : DB) (r : SaleRequest) (saleId saleCode : String) :
    Except Err SaleRow :=
  match findProduct db r.productId with
  | none => .error (.notFound ERROR_DATABASE_PRODUCT_NOT_FOUND)
  | some p =>
    .ok { id := saleId, productId := r.productId, userId := r.userId,
          quantity := r.quantity, value := p.priceSale * r.quantity,
          isPaid := false, saleCode := saleCode }

/-- One iteration of the `SaleNoteRequest` branch of `SaleService.add`:
`map_request_to_model` followed by `self.repository.add(model)` — and
`SaleRepository.add` ends with a `commit`, so each iteration commits on its
own. -/
def saleServiceAddItem (db : DB) (r : SaleRequest) (saleId saleCode : String) :
    Except Err DB :=
  match mapRequestToModel db r saleId saleCode with
  | .error e => .error e
  | .ok m => saleRepoAdd db m

/-- The `SaleNoteRequest` loop of `SaleService.add`
(`src/app/services/sale.py`): the service iterates over `request.sales`,
calling the per-item add (one commit each) under a single sale code.  The
first component of the result is the last committed state, so when an item
fails the states already committed by earlier iterations remain. -/
def saleServiceAddNoteLoop (saleCode : String) :
    DB → List (String × SaleRequest) → DB × Option Err
  | db, [] => (db, none)
  | db, (saleId, r) :: rs =>
    match saleServiceAddItem db r saleId saleCode with
    | .error e => (db, some e)
    | .ok db' => saleServiceAddNoteLoop saleCode db' rs

/-- Embedding of `SaleRepository.get(sale_code=..., all_results=True)`. -/
def salesByCode (db : DB) (code : String) : List SaleRow :=
  db.sales.filter (fun s => decide (s.saleCode = code))

/-- Embedding of `SaleRepository.get_sale_note_data`: `None` when the code resolves to no
line items and `None` when the shared user id resolves to no user; otherwise
the (employee, distinct products, line items) triple. -/
def getSaleNoteData (db : DB) (code : String) :
    Option (UserRow × List ProductRow × List SaleRow) :=
  match salesByCode db code with
  | [] => none
  | s :: ss =>
    match findUser db s.userId with
    | none => none
    | some employee =>
      some (employee,
            db.products.filter
              (fun p => decide (p.id ∈ (s :: ss).map (fun x => x.productId))),
            s :: ss)

/-- Model of `SaleNoteResponse` (`app/schemas/sale.py`). -/
structure SaleNote where
  seller : UserRow
  products : List ProductRow
  notes : List SaleRow
  totalValue : ℚ
  deriving DecidableEq

/-- Embedding of `SaleService.build_sale_note_response`:
`total_value = sum([sale.value for sale in sales])`. -/
def buildSaleNoteResponse (employee : UserRow) (products : List ProductRow)
    (sales : List SaleRow) : SaleNote :=
  { seller := employee, products := products, notes := sales,
    totalValue := (sales.map (fun s => s.value)).sum }

/-- Embedding of `SaleService.get_sale_note_by_sale_code`.  When the repository returns
`None` (zero line items for the code, or dangling user id) the service line
`employee, products, sales = await self.repository.get_sale_note_data(...)`
unpacks `None` and raises the Python built-in `TypeError` — its
`NotFoundError` guard on the next line is only reachable when the triple
exists but the product list is empty. -/
def getSaleNoteBySaleCode (db : DB) (code : String) : Except Err SaleNote :=
  match getSaleNoteData db code with
  | none => .error (.pyTypeError "cannot unpack non-iterable NoneType object")
  | some (employee, products, sales) =>
    if products = [] ∨ sales = [] then
      .error (.notFound "sale note not found")
    else
      .ok (buildSaleNoteResponse employee products sales)

/-- Embedding of `SaleRepository.delete` with a model argument:
`DELETE FROM sales WHERE id = model.id`, commit, report `rowcount > 0`. -/
def saleRepoDeleteById (db : DB) (saleId : String) : DB × Bool :=
  ({ db with sales := db.sales.filter (fun s => decide (¬ s.id = saleId)) },
   decide ((db.sales.filter (fun s => decide (¬ s.id = saleId))).length
            < db.sales.length))

/-- Embedding of `SaleService.cancel_sale_note`: fetch the rows by sale code, `NotFound`
when there are none, otherwise delete each fetched row by id (its `rowcount`
result is ignored).  Batch quantities are never touched: there is no restock
compensation. -/
def cancelSaleNote (db : DB) (code : String) : DB × Option Err :=
  match salesByCode db code with
  | [] => (db, some (.notFound "sale note not found"))
  | s :: ss =>
    ((s :: ss).foldl (fun acc x => (saleRepoDeleteById acc x.id).1) db, none)

/-- The (name, measure, mark, description, value) duplicate key of
`IngredientRepository.add` (`src/app/db/repositories/ingredient.py`). -/
def sameIngredientKey (x : IngredientRow) (name measure mark description : String)
    (value : ℚ) : Bool :=
  decide (x.name = name) && decide (x.measure = measure)
    && decide (x.mark = mark) && decide (x.description = description)
    && decide (x.value = value)

/-- Embedding of `IngredientRepository.add`: raises `ConflictError` when an ingredient with the
same (name, measure, mark, description, value) already exists, insert
otherwise. -/
def ingredientRepoAdd (db : DB) (m : IngredientRow) : Except Err DB :=
  match db.ingredients.find?
      (fun x => sameIngredientKey x m.name m.measure m.mark m.description m.value) with
  | some _ => .error (.conflict ERROR_DATABASE_INGREDIENT_ALREADY_EXISTS)
  | none => .ok { db with ingredients := m :: db.ingredients }

/-- Embedding of `IngredientRepository.add_batch`: validates that the owning ingredient
exists before the insert and fails `NotFoundError` otherwise. -/
def ingredientRepoAddBatch (db : DB) (b : IngredientBatchRow) : Except Err DB :=
  match db.ingredients.find? (fun x => decide (x.id = b.ingredientId)) with
  | none => .error (.notFound ERROR_DATABASE_INGREDIENT_NOT_FOUND)
  | some _ => .ok { db with ingredientBatches := b :: db.ingredientBatches }

/-- Model of `IngredientRequest` (`app/schemas/ingredient.py`): ingredient fields plus
the initial batch's validity and quantity. -/
structure IngredientRequest where
  name : String
  measure : String
  mark : String
  description : String
  value : ℚ
  minQuantity : ℚ
  validity : Option ℕ
  quantity : ℚ
  deriving DecidableEq

/-- Modelled from the spec: the current async `IngredientService.add` is
missing from `src/` — the file `src/app/services/ingredient.py` is a stale
pre-rewrite version (it imports a `LoteIngredientModel` that no longer exists
in `app/db/models.py` and does not match the async tests).  Per the spec
(§4.4): entity-level add creates the ingredient together with exactly one
initial batch; if an ingredient with the same
(name, mark, measure, description, value) tuple already exists, the request
is instead folded into a new batch on the existing ingredient and no second
ingredient row is created. -/
def ingredientServiceAdd (db : DB) (r : IngredientRequest)
    (newIngredientId newBatchId : String) : DB :=
  match db.ingredients.find?
      (fun x => sameIngredientKey x r.name r.measure r.mark r.description r.value) with
  | some existing =>
    { db with ingredientBatches :=
        { id := newBatchId, ingredientId := existing.id,
          validity := r.validity, quantity := r.quantity }
          :: db.ingredientBatches }
  | none =>
    { db with
      ingredients :=
        { id := newIngredientId, name := r.name, measure := r.measure,
          mark := r.mark, description := r.description, value := r.value,
          minQuantity := r.minQuantity } :: db.ingredients,
      ingredientBatches :=
        { id := newBatchId, ingredientId := newIngredientId,
          validity := r.validity, quantity := r.quantity }
          :: db.ingredientBatches }

/-- Embedding of `ProductRepository.add_product_batch`
(`src/app/db/repositories/product.py`): adds the batch and commits with no
owning-product existence check (contrast `IngredientRepository.add_batch`).
The configured test backend (SQLite without a foreign-key pragma) accepts the
insert even when the owner is missing, so the call succeeds. -/
def addProductBatch (db : DB) (b : ProductBatchRow) : Except Err DB :=
  .ok { db with productBatches := b :: db.productBatches }

/-- Embedding of `ProductService.update` restricted to the `price_sale` field: fetch the
product (`NotFoundError` when absent), patch the attribute, commit.  Only the
products table is written. -/
def productServiceUpdatePriceSale (db : DB) (pid : String) (newPrice : ℚ) :
    Except Err DB :=
  match findProduct db pid with
  | none => .error (.notFound ("Product with ID " ++ pid ++ " not found."))
  | some _ =>
    .ok { db with products :=
            db.products.map (fun p =>
              if p.id = pid then { p with priceSale := newPrice } else p) }

/-- A sequence of committed sales: `SaleRepository.add` called once per sale
model, each call running on the previously committed state. -/
def applySales : DB → List SaleRow → Except Err DB
  | db, [] => .ok db
  | db, m :: ms =>
    match saleRepoAdd db m with
    | .error e => .error e
    | .ok db' => applySales db' ms

/-- Total quantity sold against one product by a list of sale line items. -/
def soldQuantity (ms : List SaleRow) (pid : String) : ℚ :=
  ((ms.filter (fun m => decide (m.productId = pid))).map (fun m => m.quantity)).sum

/-! ### Concrete fixtures used by the counterexamples and witnesses -/

/- Fixture: a two-product note where the second line item lacks stock. -/

def noteUser : UserRow :=
  { id := "u1", name := "Ana", phone := "11999990000", email := "ana@bakery.com" }

def noteProduct1 : ProductRow :=
  { id := "p1", name := "Bread", priceCost := 2, priceSale := 10,
    mark := "-", description := "-" }

def noteProduct2 : ProductRow :=
  { id := "p2", name := "Cake", priceCost := 3, priceSale := 4,
    mark := "-", description := "-" }

def noteBatch1 : ProductBatchRow :=
  { id := "b1", productId := "p1", validity := some 10, quantity := 5 }

def noteBatch2 : ProductBatchRow :=
  { id := "b2", productId := "p2", validity := some 12, quantity := 1 }

def noteDB : DB :=
  { users := [noteUser], ingredients := [], ingredientBatches := [],
    products := [noteProduct1, noteProduct2],
    productBatches := [noteBatch1, noteBatch2], sales := [] }

def noteReq1 : SaleRequest := { productId := "p1", userId := "u1", quantity := 2 }

def noteReq2 : SaleRequest := { productId := "p2", userId := "u1", quantity := 5 }

/-- The sale row committed by the first line item of the note fixture. -/
def noteSale1 : SaleRow :=
  { id := "s1", productId := "p1", userId := "u1", quantity := 2, value := 20,
    isPaid := false, saleCode := "c0" }

/-- The state committed by the first line item of the note fixture. -/
def noteDBAfter1 : DB :=
  { noteDB with
    productBatches := [{ noteBatch1 with quantity := 3 }, noteBatch2],
    sales := [noteSale1] }

/- Fixture: a single product with insufficient stock (claim C2). -/

def stockUser : UserRow :=
  { id := "u2", name := "Rui", phone := "11888880000", email := "rui@bakery.com" }

def stockProduct : ProductRow :=
  { id := "p21", name := "Pie", priceCost := 5, priceSale := 12,
    mark := "-", description := "-" }

def stockBatch : ProductBatchRow :=
  { id := "b21", productId := "p21", validity := some 7, quantity := 3 }

def stockDB : DB :=
  { users := [stockUser], ingredients := [], ingredientBatches := [],
    products := [stockProduct], productBatches := [stockBatch], sales := [] }

def stockSale : SaleRow :=
  { id := "s21", productId := "p21", userId := "u2", quantity := 5, value := 60,
    isPaid := false, saleCode := "c21" }

/- Fixture: two batches with distinct expiry dates (claim C3, spec scenario 1). -/

def orderUser : UserRow :=
  { id := "u3", name := "Bia", phone := "11777770000", email := "bia@bakery.com" }

def orderProduct : ProductRow :=
  { id := "p3", name := "Roll", priceCost := 1, priceSale := 3,
    mark := "-", description := "-" }

def orderBatchEarly : ProductBatchRow :=
  { id := "b31", productId := "p3", validity := some 1, quantity := 5 }

def orderBatchLate : ProductBatchRow :=
  { id := "b32", productId := "p3", validity := some 2, quantity := 10 }

def orderDB : DB :=
  { users := [orderUser], ingredients := [], ingredientBatches := [],
    products := [orderProduct],
    productBatches := [orderBatchEarly, orderBatchLate], sales := [] }

def orderSale : SaleRow :=
  { id := "s3", productId := "p3", userId := "u3", quantity := 7, value := 21,
    isPaid := false, saleCode := "c3" }

def orderDBAfter : DB :=
  { orderDB with
    productBatches := [{ orderBatchEarly with quantity := 0 },
                       { orderBatchLate with quantity := 8 }],
    sales := [orderSale] }

/- Fixture: a two-sale sequence against one product (claim C4). -/

def seqUser : UserRow :=
  { id := "u4", name := "Leo", phone := "11666660000", email := "leo@bakery.com" }

def seqProduct : ProductRow :=
  { id := "p4", name := "Bun", priceCost := 1, priceSale := 2,
    mark := "-", description := "-" }

def seqBatch : ProductBatchRow :=
  { id := "b4", productId := "p4", validity := some 5, quantity := 5 }

def seqDB : DB :=
  { users := [seqUser], ingredients := [], ingredientBatches := [],
    products := [seqProduct], productBatches := [seqBatch], sales := [] }

def seqSale1 : SaleRow :=
  { id := "s41", productId := "p4", userId := "u4", quantity := 2, value := 4,
    isPaid := false, saleCode := "c41" }

def seqSale2 : SaleRow :=
  { id := "s42", productId := "p4", userId := "u4", quantity := 1, value := 2,
    isPaid := false, saleCode := "c42" }

def seqDBAfter : DB :=
  { seqDB with
    productBatches := [{ seqBatch with quantity := 2 }],
    sales := [seqSale2, seqSale1] }

/- Fixture: an existing ingredient with one batch (claim C5, spec scenario 3). -/

def flourIngredient : IngredientRow :=
  { id := "i1", name := "Flour", measure := "kg", mark := "BrandX",
    description := "desc", value := 5/2, minQuantity := 1 }

def flourBatch : IngredientBatchRow :=
  { id := "ib1", ingredientId := "i1", validity := some 30, quantity := 10 }

def flourDB : DB :=
  { users := [], ingredients := [flourIngredient],
    ingredientBatches := [flourBatch], products := [], productBatches := [],
    sales := [] }

def flourRequest : IngredientRequest :=
  { name := "Flour", measure := "kg", mark := "BrandX", description := "desc",
    value := 5/2, minQuantity := 1, validity := some 60, quantity := 5 }

/- Fixture: sale-note retrieval failures (claim C6). -/

def emptyDB : DB :=
  { users := [], ingredients := [], ingredientBatches := [], products := [],
    productBatches := [], sales := [] }

/-- A sale row whose user id matches no user row. -/
def danglingSale : SaleRow :=
  { id := "s6", productId := "p6", userId := "ghost-user", quantity := 1,
    value := 9, isPaid := false, saleCode := "c6" }

def danglingDB : DB :=
  { users := [], ingredients := [], ingredientBatches := [],
    products := [{ id := "p6", name := "Tart", priceCost := 4, priceSale := 9,
                   mark := "-", description := "-" }],
    productBatches := [], sales := [danglingSale] }

/- Fixture: a product batch whose owning product does not exist (claim C7). -/

def orphanProductBatch : ProductBatchRow :=
  { id := "pb7", productId := "ghost-product", validity := none, quantity := 3 }

def orphanIngredientBatch : IngredientBatchRow :=
  { id := "ib7", ingredientId := "ghost-ingredient", validity := none,
    quantity := 3 }

/- Fixture: three sale rows, two sharing a sale code (claim C8). -/

def cancelSaleA : SaleRow :=
  { id := "s81", productId := "p8", userId := "u8", quantity := 1, value := 5,
    isPaid := false, saleCode := "c8" }

def cancelSaleB : SaleRow :=
  { id := "s82", productId := "p8", userId := "u8", quantity := 2, value := 10,
    isPaid := false, saleCode := "c8" }

def cancelSaleOther : SaleRow :=
  { id := "s83", productId := "p8", userId := "u8", quantity := 1, value := 5,
    isPaid := false, saleCode := "other" }

def cancelBatch : ProductBatchRow :=
  { id := "b8", productId := "p8", validity := some 3, quantity := 4 }

def cancelDB : DB :=
  { users := [], ingredients := [], ingredientBatches := [],
    products := [{ id := "p8", name := "Scone", priceCost := 2, priceSale := 5,
                   mark := "-", description := "-" }],
    productBatches := [cancelBatch],
    sales := [cancelSaleA, cancelSaleB, cancelSaleOther] }

/- Fixture: value fixed at sale time (claim C9). -/

def priceUser : UserRow :=
  { id := "u9", name := "Eva", phone := "11555550000", email := "eva@bakery.com" }

def priceProduct : ProductRow :=
  { id := "p9", name := "Donut", priceCost := 1, priceSale := 10,
    mark := "-", description := "-" }

def priceBatch : ProductBatchRow :=
  { id := "b9", productId := "p9", validity := some 4, quantity := 6 }

def priceDB : DB :=
  { users := [priceUser], ingredients := [], ingredientBatches := [],
    products := [priceProduct], productBatches := [priceBatch], sales := [] }

def priceRequest : SaleRequest := { productId := "p9", userId := "u9", quantity := 3 }

/-- The Sale row produced by `map_request_to_model` on the price fixture. -/
def priceSaleRow : SaleRow :=
  { id := "s9", productId := "p9", userId := "u9", quantity := 3, value := 30,
    isPaid := false, saleCode := "c9" }

/- Fixture: exact-stock sale (claim C10). -/

def exactUser : UserRow :=
  { id := "u10", name := "Gil", phone := "11444440000", email := "gil@bakery.com" }

def exactProduct : ProductRow :=
  { id := "p10", name := "Loaf", priceCost := 2, priceSale := 6,
    mark := "-", description := "-" }

def exactBatch1 : ProductBatchRow :=
  { id := "b101", productId := "p10", validity := some 1, quantity := 2 }

def exactBatch2 : ProductBatchRow :=
  { id := "b102", productId := "p10", validity := some 2, quantity := 3 }

def exactDB : DB :=
  { users := [exactUser], ingredients := [], ingredientBatches := [],
    products := [exactProduct],
    productBatches := [exactBatch1, exactBatch2], sales := [] }

def exactSale : SaleRow :=
  { id := "s10", productId := "p10", userId := "u10", quantity := 5, value := 30,
    isPaid := false, saleCode := "c10" }

/-! ### Properties of the depletion loop -/

lemma depleteBatches_nonpos {s : ℚ} (hs : s ≤ 0) :
    ∀ bs : List ProductBatchRow, depleteBatches s bs = bs
  | [] => rfl
  | _ :: _ => by simp [depleteBatches, hs]

lemma depleteBatches_length (bs : List ProductBatchRow) :
    ∀ s : ℚ, (depleteBatches s bs).length = bs.length := by
  induction bs with
  | nil => intro s; rfl
  | cons b rest ih =>
    intro s
    by_cases h1 : s ≤ 0
    · simp [depleteBatches, h1]
    · by_cases h2 : s < b.quantity <;> simp [depleteBatches, h1, h2, ih]

lemma depleteBatches_map_productId (bs : List ProductBatchRow) :
    ∀ s : ℚ, (depleteBatches s bs).map (fun b => b.productId)
      = bs.map (fun b => b.productId) := by
  induction bs with
  | nil => intro s; rfl
  | cons b rest ih =>
    intro s
    by_cases h1 : s ≤ 0
    · simp [depleteBatches, h1]
    · by_cases h2 : s < b.quantity <;> simp [depleteBatches, h1, h2, ih]

lemma depleteBatches_productId_mem {s : ℚ} {bs : List ProductBatchRow}
    {x : ProductBatchRow} (hx : x ∈ depleteBatches s bs) :
    x.productId ∈ bs.map (fun b => b.productId) := by
  have h := List.mem_map_of_mem (fun b => b.productId) hx
  rwa [depleteBatches_map_productId] at h

lemma depleteBatches_nonneg (bs : List ProductBatchRow) :
    (∀ b ∈ bs, 0 ≤ b.quantity) → ∀ s : ℚ,
      ∀ b ∈ depleteBatches s bs, 0 ≤ b.quantity := by
  induction bs with
  | nil => intro _ s x hx; simp [depleteBatches] at hx
  | cons b rest ih =>
    intro h s x hx
    by_cases h1 : s ≤ 0
    · rw [depleteBatches_nonpos h1] at hx
      exact h x hx
    · by_cases h2 : s < b.quantity
      · rw [show depleteBatches s (b :: rest)
              = { b with quantity := b.quantity - s } :: rest by
            simp [depleteBatches, h1, h2, depleteBatches_nonpos (le_refl (0 : ℚ))]] at hx
        rcases List.mem_cons.mp hx with rfl | hx'
        · simp only []
          linarith
        · exact h x (List.mem_cons_of_mem b hx')
      · simp only [depleteBatches, if_neg h1, if_neg h2] at hx
        rcases List.mem_cons.mp hx with rfl | hx'
        · simp only []
          linarith
        · exact ih (fun y hy => h y (List.mem_cons_of_mem b hy)) _ x hx'

lemma depleteBatches_sum (bs : List ProductBatchRow) :
    ∀ s : ℚ, 0 ≤ s → s ≤ (bs.map (fun b => b.quantity)).sum →
      ((depleteBatches s bs).map (fun b => b.quantity)).sum
        = (bs.map (fun b => b.quantity)).sum - s := by
  induction bs with
  | nil =>
    intro s h0 hle
    simp only [List.map_nil, List.sum_nil] at hle ⊢
    simp [depleteBatches]
    linarith
  | cons b rest ih =>
    intro s h0 hle
    by_cases h1 : s ≤ 0
    · have hs0 : s = 0 := le_antisymm h1 h0
      rw [depleteBatches_nonpos h1, hs0]
      ring
    · by_cases h2 : s < b.quantity
      · rw [show depleteBatches s (b :: rest)
              = { b with quantity := b.quantity - s } :: rest by
            simp [depleteBatches, h1, h2, depleteBatches_nonpos (le_refl (0 : ℚ))]]
        simp only [List.map_cons, List.sum_cons]
        ring
      · have h2' : b.quantity ≤ s := not_lt.mp h2
        simp only [List.map_cons, List.sum_cons] at hle
        rw [show depleteBatches s (b :: rest)
              = { b with quantity := 0 } :: depleteBatches (s - b.quantity) rest by
            simp [depleteBatches, h1, h2]]
        simp only [List.map_cons, List.sum_cons]
        rw [ih (s - b.quantity) (by linarith) (by linarith)]
        ring

lemma sum_nonneg_all_zero (l : List ℚ) :
    (∀ x ∈ l, 0 ≤ x) → l.sum ≤ 0 → ∀ x ∈ l, x = 0 := by
  induction l with
  | nil => simp
  | cons a t ih =>
    intro h hs x hx
    have ha : 0 ≤ a := h a (List.mem_cons_self a t)
    have ht : ∀ y ∈ t, 0 ≤ y := fun y hy => h y (List.mem_cons_of_mem a hy)
    have hts : 0 ≤ t.sum := List.sum_nonneg ht
    simp only [List.sum_cons] at hs
    rcases List.mem_cons.mp hx with rfl | hx'
    · linarith
    · exact ih ht (by linarith) x hx'

lemma depleteBatches_all_zero (bs : List ProductBatchRow) :
    (∀ b ∈ bs, 0 ≤ b.quantity) → ∀ s : ℚ,
      (bs.map (fun b => b.quantity)).sum ≤ s →
      ∀ b ∈ depleteBatches s bs, b.quantity = 0 := by
  induction bs with
  | nil => intro _ s _ x hx; simp [depleteBatches] at hx
  | cons b rest ih =>
    intro h s hsum x hx
    by_cases h1 : s ≤ 0
    · rw [depleteBatches_nonpos h1] at hx
      have hz := sum_nonneg_all_zero ((b :: rest).map (fun y => y.quantity))
        (by
          intro q hq
          rcases List.mem_map.mp hq with ⟨y, hy, rfl⟩
          exact h y hy)
        (le_trans hsum h1)
      exact hz x.quantity (List.mem_map_of_mem (fun y => y.quantity) hx)
    · by_cases h2 : s < b.quantity
      · exfalso
        have hr : 0 ≤ (rest.map (fun y => y.quantity)).sum :=
          List.sum_nonneg (by
            intro q hq
            rcases List.mem_map.mp hq with ⟨y, hy, rfl⟩
            exact h y (List.mem_cons_of_mem b hy))
        simp only [List.map_cons, List.sum_cons] at hsum
        linarith
      · simp only [depleteBatches, if_neg h1, if_neg h2] at hx
        rcases List.mem_cons.mp hx with rfl | hx'
        · rfl
        · refine ih (fun y hy => h y (List.mem_cons_of_mem b hy)) (s - b.quantity) ?_ x hx'
          simp only [List.map_cons, List.sum_cons] at hsum
          linarith

lemma depleteBatches_prior_batches_zeroed (bs : List ProductBatchRow) :
    ∀ (s : ℚ) (i j : ℕ), i < j →
      (depleteBatches s bs)[j]? ≠ bs[j]? →
      ((depleteBatches s bs)[i]?).map (fun b => b.quantity) = some 0 := by
  induction bs with
  | nil => intro s i j _ hne; simp [depleteBatches] at hne
  | cons b rest ih =>
    intro s i j hij hne
    by_cases h1 : s ≤ 0
    · rw [depleteBatches_nonpos h1] at hne
      exact absurd rfl hne
    · by_cases h2 : s < b.quantity
      · exfalso
        rcases j with _ | k
        · omega
        · apply hne
          rw [show depleteBatches s (b :: rest)
                = { b with quantity := b.quantity - s } :: rest by
              simp [depleteBatches, h1, h2, depleteBatches_nonpos (le_refl (0 : ℚ))]]
          simp [List.getElem?_cons_succ]
      · have heq : depleteBatches s (b :: rest)
            = { b with quantity := 0 } :: depleteBatches (s - b.quantity) rest := by
          simp [depleteBatches, h1, h2]
        rcases i with _ | l
        · rw [heq]
          simp [List.getElem?_cons_zero]
        · rcases j with _ | k
          · omega
          · rw [heq]
            simp only [List.getElem?_cons_succ]
            apply ih (s - b.quantity) l k (by omega)
            rw [heq] at hne
            simpa [List.getElem?_cons_succ] using hne

/-! ### Properties of the fetched (expiry-ascending) batch list -/

lemma perm_fetchedBatches (db : DB) (pid : String) :
    (fetchedBatches db pid).Perm (productBatchesOf db pid) :=
  List.perm_insertionSort batchLE (productBatchesOf db pid)

lemma sorted_fetchedBatches (db : DB) (pid : String) :
    List.Sorted batchLE (fetchedBatches db pid) :=
  List.sorted_insertionSort batchLE (productBatchesOf db pid)

lemma fetchedBatches_sum (db : DB) (pid : String) :
    ((fetchedBatches db pid).map (fun b => b.quantity)).sum = totalStock db pid :=
  ((perm_fetchedBatches db pid).map (fun b => b.quantity)).sum_eq

lemma mem_productBatchesOf {db : DB} {pid : String} {b : ProductBatchRow}
    (h : b ∈ productBatchesOf db pid) :
    b ∈ db.productBatches ∧ b.productId = pid := by
  unfold productBatchesOf at h
  refine ⟨List.mem_of_mem_filter h, ?_⟩
  have h2 := List.of_mem_filter h
  simpa using h2

lemma mem_fetchedBatches {db : DB} {pid : String} {b : ProductBatchRow}
    (h : b ∈ fetchedBatches db pid) :
    b ∈ db.productBatches ∧ b.productId = pid :=
  mem_productBatchesOf ((perm_fetchedBatches db pid).mem_iff.mp h)

lemma fetchedBatches_length (db : DB) (pid : String) :
    (fetchedBatches db pid).length = (productBatchesOf db pid).length :=
  (perm_fetchedBatches db pid).length_eq

lemma fetchedBatches_eq_nil_iff (db : DB) (pid : String) :
    fetchedBatches db pid = [] ↔ productBatchesOf db pid = [] := by
  rw [← List.length_eq_zero, ← List.length_eq_zero, fetchedBatches_length]

/-! ### Anatomy of a successful repository-level sale -/

lemma saleLocalAdd_ok {db : DB} {m : SaleRow} {db' : DB}
    (h : saleLocalAdd db m = .ok db') :
    m.quantity ≤ totalStock db m.productId ∧
    productBatchesOf db m.productId ≠ [] ∧
    db' = { db with
            productBatches :=
              depleteBatches m.quantity (fetchedBatches db m.productId)
                ++ db.productBatches.filter
                    (fun x => decide (¬ x.productId = m.productId)),
            sales := m :: db.sales } := by
  cases hp : findProduct db m.productId with
  | none => simp [saleLocalAdd, hp] at h
  | some p =>
  cases hu : findUser db m.userId with
  | none => simp [saleLocalAdd, hp, hu] at h
  | some u =>
  cases hf : fetchedBatches db m.productId with
  | nil => simp [saleLocalAdd, hp, hu, hf] at h
  | cons b bs =>
    by_cases hq : ((b :: bs).map (fun x => x.quantity)).sum < m.quantity
    · have hq' : b.quantity + (bs.map (fun x => x.quantity)).sum < m.quantity := by
        simpa using hq
      simp [saleLocalAdd, hp, hu, hf, hq'] at h
    · have hsum : ((b :: bs).map (fun x => x.quantity)).sum = totalStock db m.productId := by
        rw [← hf]
        exact fetchedBatches_sum db m.productId
      refine ⟨by rw [← hsum]; exact not_lt.mp hq, ?_, ?_⟩
      · intro hnil
        have hfe := (fetchedBatches_eq_nil_iff db m.productId).mpr hnil
        rw [hf] at hfe
        exact List.cons_ne_nil b bs hfe
      · simp only [saleLocalAdd, hp, hu, hf, if_neg hq, Except.ok.injEq] at h
        exact h.symm

lemma saleRepoAdd_ok {db : DB} {m : SaleRow} {db' : DB}
    (h : saleRepoAdd db m = .ok db') :
    m.quantity ≤ totalStock db m.productId ∧
    productBatchesOf db m.productId ≠ [] ∧
    db' = { db with
            productBatches :=
              depleteBatches m.quantity (fetchedBatches db m.productId)
                ++ db.productBatches.filter
                    (fun x => decide (¬ x.productId = m.productId)),
            sales := m :: db.sales } :=
  saleLocalAdd_ok h

lemma saleRepoAdd_sales {db : DB} {m : SaleRow} {db' : DB}
    (h : saleRepoAdd db m = .ok db') : db'.sales = m :: db.sales := by
  rw [(saleRepoAdd_ok h).2.2]

lemma filter_depleteBatches_self {db : DB} {m : SaleRow} :
    (depleteBatches m.quantity (fetchedBatches db m.productId)).filter
        (fun b => decide (b.productId = m.productId))
      = depleteBatches m.quantity (fetchedBatches db m.productId) := by
  apply List.filter_eq_self.mpr
  intro x hx
  rcases List.mem_map.mp (depleteBatches_productId_mem hx) with ⟨y, hy, hxy⟩
  have hpid := (mem_fetchedBatches hy).2
  simp [← hxy, hpid]

lemma totalStock_eq (db : DB) (pid : String) :
    totalStock db pid
      = ((db.productBatches.filter (fun b => decide (b.productId = pid))).map
          (fun b => b.quantity)).sum := rfl

lemma saleRepoAdd_totalStock {db : DB} {m : SaleRow} {db' : DB}
    (h : saleRepoAdd db m = .ok db') (hq : 0 ≤ m.quantity) (pid : String) :
    totalStock db' pid
      = if pid = m.productId then totalStock db pid - m.quantity
        else totalStock db pid := by
  obtain ⟨hle, -, hdb⟩ := saleRepoAdd_ok h
  have hpb : db'.productBatches
      = depleteBatches m.quantity (fetchedBatches db m.productId)
          ++ db.productBatches.filter
              (fun x => decide (¬ x.productId = m.productId)) := by
    rw [hdb]
  have hsplit : totalStock db' pid
      = (((depleteBatches m.quantity (fetchedBatches db m.productId)).filter
            (fun b => decide (b.productId = pid))).map (fun b => b.quantity)).sum
        + (((db.productBatches.filter
              (fun x => decide (¬ x.productId = m.productId))).filter
            (fun b => decide (b.productId = pid))).map (fun b => b.quantity)).sum := by
    rw [totalStock_eq, hpb, List.filter_append, List.map_append, List.sum_append]
  by_cases hpid : pid = m.productId
  · rw [if_pos hpid]
    subst hpid
    rw [hsplit, filter_depleteBatches_self]
    have hother :
        ((db.productBatches.filter (fun x => decide (¬ x.productId = m.productId))).filter
            (fun b => decide (b.productId = m.productId))) = [] := by
      rw [List.filter_filter]
      apply List.filter_eq_nil_iff.mpr
      intro x _
      simp
    rw [hother]
    rw [depleteBatches_sum (fetchedBatches db m.productId) m.quantity hq
          (by rw [fetchedBatches_sum]; exact hle)]
    rw [fetchedBatches_sum]
    simp
  · rw [if_neg hpid, hsplit]
    have hdep0 :
        ((depleteBatches m.quantity (fetchedBatches db m.productId)).filter
            (fun b => decide (b.productId = pid))) = [] := by
      apply List.filter_eq_nil_iff.mpr
      intro x hx
      rcases List.mem_map.mp (depleteBatches_productId_mem hx) with ⟨y, hy, hxy⟩
      have hpid' := (mem_fetchedBatches hy).2
      simp [← hxy, hpid']
      intro hcontra
      exact hpid (hcontra ▸ rfl)
    have hother :
        ((db.productBatches.filter (fun x => decide (¬ x.productId = m.productId))).filter
            (fun b => decide (b.productId = pid)))
          = db.productBatches.filter (fun b => decide (b.productId = pid)) := by
      rw [List.filter_filter]
      apply List.filter_congr
      intro x _
      by_cases hxp : x.productId = pid
      · simp [hxp]
        exact fun hcontra => hpid (hcontra ▸ rfl)
      · simp [hxp]
    rw [hdep0, hother, totalStock_eq]
    simp

lemma saleRepoAdd_nonneg {db : DB} {m : SaleRow} {db' : DB}
    (h : saleRepoAdd db m = .ok db')
    (hnn : ∀ b ∈ db.productBatches, 0 ≤ b.quantity) :
    ∀ b ∈ db'.productBatches, 0 ≤ b.quantity := by
  obtain ⟨-, -, hdb⟩ := saleRepoAdd_ok h
  subst hdb
  intro b hb
  simp only [List.mem_append] at hb
  rcases hb with hb1 | hb2
  · exact depleteBatches_nonneg (fetchedBatches db m.productId)
      (fun x hx => hnn x (mem_fetchedBatches hx).1) m.quantity b hb1
  · exact hnn b (List.mem_of_mem_filter hb2)

/-! ### Claim C2: insufficient stock rejects the sale with no mutation -/

/-- Claim C2: for every sale request on an existing product and user whose
requested quantity strictly exceeds the total quantity across all of the
product's batches, `SaleRepository.add` fails with a NotFound-class error
(precisely the insufficient-stock message whenever at least one batch row
exists; the zero-batch edge case raises the batch-not-found message of the
same class), and the committed state is unchanged: no batch is mutated and no
Sale row is created. -/
theorem sale_insufficient_stock_rejected (db : DB) (m : SaleRow)
    (hp : (findProduct db m.productId).isSome = true)
    (hu : (findUser db m.userId).isSome = true)
    (hlt : totalStock db m.productId < m.quantity) :
    ∃ e, saleRepoAdd db m = .error e ∧ e.isNotFound = true ∧
      (productBatchesOf db m.productId ≠ [] →
        e = .notFound ERROR_NOT_ENOUGH_PRODUCT_IN_STOCK) ∧
      runTxn db (saleRepoAdd db m) = (db, some e) := by
  obtain ⟨p, hp'⟩ := Option.isSome_iff_exists.mp hp
  obtain ⟨u, hu'⟩ := Option.isSome_iff_exists.mp hu
  cases hf : fetchedBatches db m.productId with
  | nil =>
    have herr : saleRepoAdd db m
        = .error (.notFound ERROR_DATABASE_PRODUCT_BATCH_NOT_FOUND) := by
      simp [saleRepoAdd, saleLocalAdd, hp', hu', hf]
    refine ⟨.notFound ERROR_DATABASE_PRODUCT_BATCH_NOT_FOUND, herr, rfl, ?_, ?_⟩
    · intro hne
      exact absurd ((fetchedBatches_eq_nil_iff db m.productId).mp hf) hne
    · rw [herr]
      rfl
  | cons b bs =>
    have hq : b.quantity + (bs.map (fun x => x.quantity)).sum < m.quantity := by
      have hs := fetchedBatches_sum db m.productId
      rw [hf] at hs
      simp only [List.map_cons, List.sum_cons] at hs
      linarith
    have herr : saleRepoAdd db m
        = .error (.notFound ERROR_NOT_ENOUGH_PRODUCT_IN_STOCK) := by
      simp [saleRepoAdd, saleLocalAdd, hp', hu', hf, hq]
    refine ⟨.notFound ERROR_NOT_ENOUGH_PRODUCT_IN_STOCK, herr, rfl, fun _ => rfl, ?_⟩
    rw [herr]
    rfl

/-! ### Claim C3: depletion consumes batches in ascending expiry order -/

/-- Claim C3: for every successful sale, the batch list consumed is the
product's batches sorted ascending by expiry date, and along that order: a
batch holding strictly more than the remaining requested amount is decremented
by exactly that amount and no later batch is touched, a batch holding at most
the remaining amount is zeroed with its former quantity deducted from the
remainder, and a later batch differs from its fetched value only when every
earlier batch has been fully consumed (quantity 0). -/
theorem sale_depletes_in_expiry_order (db : DB) (m : SaleRow) (db' : DB)
    (h : saleRepoAdd db m = .ok db') :
    List.Sorted batchLE (fetchedBatches db m.productId) ∧
    db'.productBatches
      = depleteBatches m.quantity (fetchedBatches db m.productId)
          ++ db.productBatches.filter
              (fun x => decide (¬ x.productId = m.productId)) ∧
    (∀ (s : ℚ) (b : ProductBatchRow) (rest : List ProductBatchRow),
      0 < s → s < b.quantity →
        depleteBatches s (b :: rest)
          = { b with quantity := b.quantity - s } :: rest) ∧
    (∀ (s : ℚ) (b : ProductBatchRow) (rest : List ProductBatchRow),
      0 < s → b.quantity ≤ s →
        depleteBatches s (b :: rest)
          = { b with quantity := 0 } :: depleteBatches (s - b.quantity) rest) ∧
    (∀ i j : ℕ, i < j →
      (depleteBatches m.quantity (fetchedBatches db m.productId))[j]?
          ≠ (fetchedBatches db m.productId)[j]? →
      ((depleteBatches m.quantity (fetchedBatches db m.productId))[i]?).map
          (fun b => b.quantity) = some 0) := by
  refine ⟨sorted_fetchedBatches db m.productId, ?_, ?_, ?_, ?_⟩
  · rw [(saleRepoAdd_ok h).2.2]
  · intro s b rest hs hlt
    have h1 : ¬ s ≤ 0 := by linarith
    simp [depleteBatches, h1, hlt, depleteBatches_nonpos (le_refl (0 : ℚ))]
  · intro s b rest hs hle
    have h1 : ¬ s ≤ 0 := by linarith
    have h2 : ¬ s < b.quantity := by linarith
    simp [depleteBatches, h1, h2]
  · exact fun i j hij hne =>
      depleteBatches_prior_batches_zeroed (fetchedBatches db m.productId)
        m.quantity i j hij hne

/-! ### Claim C10: a sale of exactly the total stock succeeds and zeroes all
batches -/

/-- Claim C10: when the requested quantity equals the summed quantity of all
batch rows of an existing product (and at least one batch row exists, the
stock is non-negative, and the user exists), the strict `<` insufficiency
comparison does not fire: the sale succeeds, every batch row of the product
ends with quantity 0, and all of the (now zero-quantity) batch rows are
retained — the row count of the product's batches is unchanged. -/
theorem sale_exact_stock_succeeds (db : DB) (m : SaleRow)
    (hp : (findProduct db m.productId).isSome = true)
    (hu : (findUser db m.userId).isSome = true)
    (hb : productBatchesOf db m.productId ≠ [])
    (hnn : ∀ b ∈ db.productBatches, 0 ≤ b.quantity)
    (heq : totalStock db m.productId = m.quantity) :
    ∃ db', saleRepoAdd db m = .ok db' ∧
      (∀ b ∈ productBatchesOf db' m.productId, b.quantity = 0) ∧
      (productBatchesOf db' m.productId).length
        = (productBatchesOf db m.productId).length ∧
      db'.sales = m :: db.sales := by
  obtain ⟨p, hp'⟩ := Option.isSome_iff_exists.mp hp
  obtain ⟨u, hu'⟩ := Option.isSome_iff_exists.mp hu
  cases hf : fetchedBatches db m.productId with
  | nil => exact absurd ((fetchedBatches_eq_nil_iff db m.productId).mp hf) hb
  | cons b bs =>
    have hsumf : ((b :: bs).map (fun x => x.quantity)).sum = m.quantity := by
      have hs := fetchedBatches_sum db m.productId
      rw [hf] at hs
      rw [hs, heq]
    have hq : ¬ b.quantity + (bs.map (fun x => x.quantity)).sum < m.quantity := by
      simp only [List.map_cons, List.sum_cons] at hsumf
      linarith
    have hok : saleRepoAdd db m = .ok
        { db with
          productBatches :=
            depleteBatches m.quantity (b :: bs)
              ++ db.productBatches.filter
                  (fun x => decide (¬ x.productId = m.productId)),
          sales := m :: db.sales } := by
      simp [saleRepoAdd, saleLocalAdd, hp', hu', hf, hq]
    refine ⟨_, hok, ?_, ?_, rfl⟩
    · intro x hx
      obtain ⟨hxall, hxpid⟩ := mem_productBatchesOf hx
      simp only [List.mem_append] at hxall
      rcases hxall with hx1 | hx2
      · refine depleteBatches_all_zero (b :: bs) ?_ m.quantity (le_of_eq hsumf) x hx1
        intro y hy
        rw [← hf] at hy
        exact hnn y (mem_fetchedBatches hy).1
      · exfalso
        have := List.of_mem_filter hx2
        simp [hxpid] at this
    · have hall : ∀ x ∈ depleteBatches m.quantity (b :: bs),
          x.productId = m.productId := by
        intro x hx
        rcases List.mem_map.mp (depleteBatches_productId_mem hx) with ⟨y, hy, hxy⟩
        rw [← hf] at hy
        rw [← hxy]
        exact (mem_fetchedBatches hy).2
      have hsplit : productBatchesOf
          { db with
            productBatches :=
              depleteBatches m.quantity (b :: bs)
                ++ db.productBatches.filter
                    (fun x => decide (¬ x.productId = m.productId)),
            sales := m :: db.sales } m.productId
          = depleteBatches m.quantity (b :: bs) := by
        unfold productBatchesOf
        rw [List.filter_append]
        rw [List.filter_eq_self.mpr (by intro x hx; simp [hall x hx])]
        rw [List.filter_eq_nil_iff.mpr (by intro x hx; simp; have := List.of_mem_filter hx; simpa using this)]
        rw [List.append_nil]
      rw [hsplit, depleteBatches_length, ← fetchedBatches_length db m.productId, hf]

/-! ### Claim C4: stock conservation across a sequence of successful sales -/

lemma soldQuantity_cons (m : SaleRow) (ms : List SaleRow) (pid : String) :
    soldQuantity (m :: ms) pid
      = (if m.productId = pid then m.quantity else 0) + soldQuantity ms pid := by
  by_cases h : m.productId = pid <;>
    simp [soldQuantity, List.filter_cons, h]

/-- Claim C4: along any sequence of committed sales (each with a non-negative
requested quantity) starting from a state whose batch quantities are all
non-negative, the total stock of every product after the run equals the total
before minus the quantity sold against it, every batch quantity stays
non-negative, and the same holds at every intermediate point (every prefix of
the sequence commits successfully to a state satisfying both properties). -/
theorem sales_conserve_stock (ms : List SaleRow) :
    ∀ db db' : DB,
      (∀ b ∈ db.productBatches, 0 ≤ b.quantity) →
      (∀ m ∈ ms, 0 ≤ m.quantity) →
      applySales db ms = .ok db' →
      ((∀ b ∈ db'.productBatches, 0 ≤ b.quantity) ∧
       (∀ pid, totalStock db' pid = totalStock db pid - soldQuantity ms pid) ∧
       (∀ xs ys, ms = xs ++ ys → ∃ dbm, applySales db xs = .ok dbm ∧
          (∀ b ∈ dbm.productBatches, 0 ≤ b.quantity) ∧
          (∀ pid, totalStock dbm pid = totalStock db pid - soldQuantity xs pid))) := by
  induction ms with
  | nil =>
    intro db db' hnn _ h
    simp only [applySales, Except.ok.injEq] at h
    subst h
    refine ⟨hnn, by simp [soldQuantity], ?_⟩
    intro xs ys hxy
    rcases List.append_eq_nil.mp hxy.symm with ⟨rfl, rfl⟩
    exact ⟨db, rfl, hnn, by simp [soldQuantity]⟩
  | cons m rest ih =>
    intro db db' hnn hq h
    cases hstep : saleRepoAdd db m with
    | error e => simp [applySales, hstep] at h
    | ok db1 =>
      have h1 : applySales db1 rest = .ok db' := by
        simpa [applySales, hstep] using h
      have hq0 : 0 ≤ m.quantity := hq m (List.mem_cons_self m rest)
      have hqr : ∀ x ∈ rest, 0 ≤ x.quantity :=
        fun x hx => hq x (List.mem_cons_of_mem m hx)
      have hnn1 : ∀ b ∈ db1.productBatches, 0 ≤ b.quantity :=
        saleRepoAdd_nonneg hstep hnn
      have hts1 : ∀ pid, totalStock db1 pid
          = totalStock db pid - (if m.productId = pid then m.quantity else 0) := by
        intro pid
        rw [saleRepoAdd_totalStock hstep hq0 pid]
        by_cases hpid : pid = m.productId
        · subst hpid
          simp
        · rw [if_neg hpid, if_neg (fun hcontra => hpid hcontra.symm)]
          ring
      obtain ⟨hA, hB, hC⟩ := ih db1 db' hnn1 hqr h1
      refine ⟨hA, ?_, ?_⟩
      · intro pid
        rw [hB pid, hts1 pid, soldQuantity_cons]
        ring
      · intro xs ys hxy
        cases xs with
        | nil =>
          exact ⟨db, rfl, hnn, by simp [soldQuantity]⟩
        | cons x xt =>
          have hx : x = m := by
            have := congrArg (fun l => l.head?) hxy
            simpa using this.symm
          subst hx
          have htail : rest = xt ++ ys := by
            have := congrArg (fun l => l.tail) hxy
            simpa using this
          obtain ⟨dbm, hdbm, hdbmnn, hdbmts⟩ := hC xt ys htail
          refine ⟨dbm, ?_, hdbmnn, ?_⟩
          · simp [applySales, hstep, hdbm]
          · intro pid
            rw [hdbmts pid, hts1 pid, soldQuantity_cons]
            ring

/-! ### Claim C1: the multi-item sale-note path commits per item -/

lemma saleServiceAddItem_ok_sales {db : DB} {r : SaleRequest}
    {saleId code : String} {db' : DB}
    (h : saleServiceAddItem db r saleId code = .ok db') :
    ∃ m : SaleRow, db'.sales = m :: db.sales := by
  unfold saleServiceAddItem at h
  cases hm : mapRequestToModel db r saleId code with
  | error e =>
    rw [hm] at h
    exact Except.noConfusion h
  | ok m =>
    rw [hm] at h
    exact ⟨m, saleRepoAdd_sales h⟩

lemma saleServiceAddNoteLoop_sales_mono (code : String)
    (rs : List (String × SaleRequest)) :
    ∀ db : DB, ∀ s ∈ db.sales,
      s ∈ (saleServiceAddNoteLoop code db rs).1.sales := by
  induction rs with
  | nil => intro db s hs; exact hs
  | cons p rest ih =>
    intro db s hs
    obtain ⟨sid, r⟩ := p
    cases hstep : saleServiceAddItem db r sid code with
    | error e =>
      simp only [saleServiceAddNoteLoop, hstep]
      exact hs
    | ok db' =>
      obtain ⟨m, hm⟩ := saleServiceAddItem_ok_sales hstep
      simp only [saleServiceAddNoteLoop, hstep]
      exact ih db' s (by rw [hm]; exact List.mem_cons_of_mem m hs)

/-- Claim C1 (amended): in the multi-item sale-note path every line item is
committed by its own repository-add call, so when a later line item fails the
already-committed earlier items are not rolled back: the loop returns the
failing item's error together with the state committed so far, and every Sale
row persisted by the earlier items is still present in that state. -/
theorem sale_note_commits_items_individually
    (db : DB) (code saleId : String) (r : SaleRequest)
    (rs : List (String × SaleRequest)) (db1 db2 : DB) (e : Err)
    (h1 : saleServiceAddItem db r saleId code = .ok db1)
    (h2 : saleServiceAddNoteLoop code db1 rs = (db2, some e)) :
    saleServiceAddNoteLoop code db ((saleId, r) :: rs) = (db2, some e) ∧
    ∀ s ∈ db1.sales, s ∈ db2.sales := by
  constructor
  · simp only [saleServiceAddNoteLoop, h1]
    exact h2
  · intro s hs
    have hmono := saleServiceAddNoteLoop_sales_mono code rs db1 s hs
    rw [h2] at hmono
    exact hmono

/-- Claim C1 (counterexample): on the concrete two-item note fixture the
second line item fails for insufficient stock, yet the persisted state after
the failure still holds the first item's Sale row and its mutated (depleted)
batch rows — the multi-item request is not one atomic unit. -/
theorem sale_note_not_atomic_counterexample :
    ((saleServiceAddNoteLoop "c0" noteDB [("s1", noteReq1), ("s2", noteReq2)]).2).isSome
        = true ∧
    (saleServiceAddNoteLoop "c0" noteDB [("s1", noteReq1), ("s2", noteReq2)]).1.sales
        = [noteSale1] ∧
    (saleServiceAddNoteLoop "c0" noteDB [("s1", noteReq1), ("s2", noteReq2)]).1.productBatches
        ≠ noteDB.productBatches := by
  norm_num [saleServiceAddNoteLoop, saleServiceAddItem, mapRequestToModel,
    saleRepoAdd, saleLocalAdd, findProduct, findUser, fetchedBatches,
    productBatchesOf, depleteBatches, List.insertionSort, List.orderedInsert,
    noteDB, noteUser, noteProduct1, noteProduct2, noteBatch1, noteBatch2,
    noteReq1, noteReq2, noteSale1, List.find?, batchLE, validityLE,
    (by decide : ¬ ("p1" : String) = "p2"),
    (by decide : ¬ ("p2" : String) = "p1")]

theorem sale_note_commits_items_individually_witness :
    saleServiceAddNoteLoop "c0" noteDB [("s1", noteReq1), ("s2", noteReq2)]
        = (noteDBAfter1, some (.notFound ERROR_NOT_ENOUGH_PRODUCT_IN_STOCK)) ∧
    ∀ s ∈ noteDBAfter1.sales, s ∈ noteDBAfter1.sales :=
  sale_note_commits_items_individually noteDB "c0" "s1" noteReq1
    [("s2", noteReq2)] noteDBAfter1 noteDBAfter1
    (.notFound ERROR_NOT_ENOUGH_PRODUCT_IN_STOCK)
    (by norm_num [saleServiceAddItem, mapRequestToModel, saleRepoAdd,
      saleLocalAdd, findProduct, findUser, fetchedBatches, productBatchesOf,
      depleteBatches, List.insertionSort, List.orderedInsert, noteDB, noteUser,
      noteProduct1, noteProduct2, noteBatch1, noteBatch2, noteReq1, noteSale1,
      noteDBAfter1, List.find?, batchLE, validityLE,
      (by decide : ¬ ("p1" : String) = "p2"),
      (by decide : ¬ ("p2" : String) = "p1")])
    (by norm_num [saleServiceAddNoteLoop, saleServiceAddItem,
      mapRequestToModel, saleRepoAdd, saleLocalAdd, findProduct, findUser,
      fetchedBatches, productBatchesOf, depleteBatches, List.insertionSort,
      List.orderedInsert, noteDB, noteUser, noteProduct1, noteProduct2,
      noteBatch1, noteBatch2, noteReq2, noteDBAfter1, noteSale1, List.find?,
      batchLE, validityLE,
      (by decide : ¬ ("p1" : String) = "p2"),
      (by decide : ¬ ("p2" : String) = "p1")])

/-! ### Claim C5: duplicate ingredient folds into a new batch -/

lemma find?_of_filter_singleton {α : Type} {p : α → Bool} {l : List α} {a : α}
    (h : l.filter p = [a]) : l.find? p = some a := by
  induction l with
  | nil => simp at h
  | cons x t ih =>
    by_cases hx : p x
    · rw [List.filter_cons_of_pos hx] at h
      injection h with h1 _
      rw [List.find?_cons_of_pos t hx, h1]
    · rw [List.filter_cons_of_neg hx] at h
      rw [List.find?_cons_of_neg t hx]
      exact ih h

/-- Claim C5: when exactly one ingredient row matches the request's
(name, measure, mark, description, value) tuple, the add request creates no
second ingredient row — the ingredients table is unchanged and still holds
exactly that one matching row — and instead adds one new batch on the
existing ingredient, so its batch count grows by exactly one (one batch
before gives two after). -/
theorem ingredient_duplicate_folds_into_batch
    (db : DB) (r : IngredientRequest) (newIngredientId newBatchId : String)
    (existing : IngredientRow)
    (hk : db.ingredients.filter
        (fun x => sameIngredientKey x r.name r.measure r.mark r.description r.value)
      = [existing]) :
    (ingredientServiceAdd db r newIngredientId newBatchId).ingredients
        = db.ingredients ∧
    (ingredientServiceAdd db r newIngredientId newBatchId).ingredients.filter
        (fun x => sameIngredientKey x r.name r.measure r.mark r.description r.value)
      = [existing] ∧
    ((ingredientServiceAdd db r newIngredientId newBatchId).ingredientBatches.filter
        (fun b => decide (b.ingredientId = existing.id))).length
      = (db.ingredientBatches.filter
          (fun b => decide (b.ingredientId = existing.id))).length + 1 := by
  have hfind := find?_of_filter_singleton hk
  have hsvc : ingredientServiceAdd db r newIngredientId newBatchId
      = { db with ingredientBatches :=
            { id := newBatchId, ingredientId := existing.id,
              validity := r.validity, quantity := r.quantity }
              :: db.ingredientBatches } := by
    unfold ingredientServiceAdd
    rw [hfind]
  rw [hsvc]
  refine ⟨rfl, hk, ?_⟩
  rw [List.filter_cons_of_pos (by simp)]
  simp

theorem ingredient_duplicate_folds_into_batch_witness :
    (ingredientServiceAdd flourDB flourRequest "i-new" "ib-new").ingredients
        = flourDB.ingredients ∧
    (ingredientServiceAdd flourDB flourRequest "i-new" "ib-new").ingredients.filter
        (fun x => sameIngredientKey x flourRequest.name flourRequest.measure
          flourRequest.mark flourRequest.description flourRequest.value)
      = [flourIngredient] ∧
    ((ingredientServiceAdd flourDB flourRequest "i-new" "ib-new").ingredientBatches.filter
        (fun b => decide (b.ingredientId = flourIngredient.id))).length
      = (flourDB.ingredientBatches.filter
          (fun b => decide (b.ingredientId = flourIngredient.id))).length + 1 :=
  ingredient_duplicate_folds_into_batch flourDB flourRequest "i-new" "ib-new"
    flourIngredient
    (by norm_num [flourDB, flourIngredient, flourRequest, sameIngredientKey,
      List.filter])

/-! ### Claim C6: sale-note retrieval failure raises TypeError, not NotFound -/

/-- Claim C6 (code bug): at a sale code with zero line items, and likewise at
a sale code whose line items carry a user id with no user row, the service
raises the Python built-in `TypeError` (from unpacking the repository's
`None`), not the `NotFoundError` that the claim and the dead guard on the next
line of the service intend. -/
theorem sale_note_retrieval_raises_type_error :
    getSaleNoteBySaleCode emptyDB "c-missing"
        = .error (.pyTypeError "cannot unpack non-iterable NoneType object") ∧
    getSaleNoteBySaleCode danglingDB "c6"
        = .error (.pyTypeError "cannot unpack non-iterable NoneType object") := by
  constructor <;> rfl

/-! ### Claim C7: only the ingredient side validates the owning entity -/

/-- Claim C7 (counterexample): `ProductRepository.add_product_batch` inserts
a batch whose owning product does not exist — the operation succeeds instead
of failing with a NotFound error, so the claimed symmetric validation does
not hold on the product side. -/
theorem product_batch_add_skips_owner_check_counterexample :
    emptyDB.products = [] ∧
    addProductBatch emptyDB orphanProductBatch
      = .ok { emptyDB with productBatches := [orphanProductBatch] } :=
  ⟨rfl, rfl⟩

/-- Claim C7 (amended): `IngredientRepository.add_batch` validates that the
owning ingredient exists and fails with `NotFoundError` when it does not,
while `ProductRepository.add_product_batch` performs no owner-existence
validation and inserts the batch unconditionally. -/
theorem batch_add_owner_validation_is_asymmetric
    (db : DB) (ib : IngredientBatchRow) (pb : ProductBatchRow)
    (hmiss : db.ingredients.find? (fun x => decide (x.id = ib.ingredientId))
        = none) :
    ingredientRepoAddBatch db ib
        = .error (.notFound ERROR_DATABASE_INGREDIENT_NOT_FOUND) ∧
    addProductBatch db pb
        = .ok { db with productBatches := pb :: db.productBatches } := by
  constructor
  · unfold ingredientRepoAddBatch
    rw [hmiss]
  · rfl

theorem batch_add_owner_validation_is_asymmetric_witness :
    ingredientRepoAddBatch emptyDB orphanIngredientBatch
        = .error (.notFound ERROR_DATABASE_INGREDIENT_NOT_FOUND) ∧
    addProductBatch emptyDB orphanProductBatch
        = .ok { emptyDB with productBatches := [orphanProductBatch] } :=
  batch_add_owner_validation_is_asymmetric emptyDB orphanIngredientBatch
    orphanProductBatch rfl

/-! ### Claim C8: cancel deletes the code's Sale rows and never restocks -/

lemma foldDelete_eq (ss : List SaleRow) :
    ∀ db : DB,
      ss.foldl (fun acc x => (saleRepoDeleteById acc x.id).1) db
        = { db with sales := (db.sales.filter
              (fun s => decide (¬ s.id ∈ ss.map (fun x => x.id)))) } := by
  induction ss with
  | nil =>
    intro db
    simp
  | cons x xt ih =>
    intro db
    rw [List.foldl_cons, ih]
    unfold saleRepoDeleteById
    simp only []
    congr 1
    rw [List.filter_filter]
    apply List.filter_congr
    intro y _
    by_cases h1 : y.id = x.id <;>
      by_cases h2 : y.id ∈ xt.map (fun z => z.id) <;>
        simp [h1, h2]

/-- Claim C8: when at least one Sale row carries the given sale code (row ids
being unique), cancel-sale-note deletes exactly the Sale rows with that code
and touches nothing else — in particular every product batch keeps its
post-sale depleted quantity (no restock); when no row matches, it fails with
a NotFound error and deletes nothing. -/
theorem cancel_sale_note_deletes_rows_never_restocks
    (db : DB) (code : String)
    (hids : (db.sales.map (fun s => s.id)).Nodup) :
    (salesByCode db code ≠ [] →
      cancelSaleNote db code
        = ({ db with sales := (db.sales.filter
              (fun s => decide (¬ s.saleCode = code))) }, none)) ∧
    (salesByCode db code = [] →
      cancelSaleNote db code = (db, some (.notFound "sale note not found"))) ∧
    (cancelSaleNote db code).1.productBatches = db.productBatches := by
  by_cases hempty : salesByCode db code = []
  · refine ⟨fun hne => absurd hempty hne, fun _ => ?_, ?_⟩
    · simp [cancelSaleNote, hempty]
    · simp [cancelSaleNote, hempty]
  · obtain ⟨s, ss, hsc⟩ := List.exists_cons_of_ne_nil hempty
    have hrun : cancelSaleNote db code
        = ({ db with sales := (db.sales.filter
              (fun y => decide (¬ y.id ∈ (s :: ss).map (fun x => x.id)))) },
           none) := by
      simp only [cancelSaleNote, hsc]
      rw [foldDelete_eq]
    have hfilter :
        db.sales.filter (fun y => decide (¬ y.id ∈ (s :: ss).map (fun x => x.id)))
          = db.sales.filter (fun y => decide (¬ y.saleCode = code)) := by
      apply List.filter_congr
      intro y hy
      have hiff : y.id ∈ (s :: ss).map (fun x => x.id) ↔ y.saleCode = code := by
        constructor
        · intro hmem
          rcases List.mem_map.mp hmem with ⟨t, ht, hty⟩
          rw [← hsc] at ht
          have hty' : t = y :=
            List.inj_on_of_nodup_map hids
              (List.mem_of_mem_filter ht) hy hty
          have hcode := List.of_mem_filter ht
          rw [← hty']
          simpa using hcode
        · intro hcode
          have hmem : y ∈ salesByCode db code := by
            unfold salesByCode
            exact List.mem_filter.mpr ⟨hy, by simpa using hcode⟩
          rw [← hsc]
          exact List.mem_map_of_mem (fun x => x.id) hmem
      rw [decide_eq_decide]
      exact not_congr hiff
    refine ⟨fun _ => ?_, fun habs => absurd habs hempty, ?_⟩
    · rw [hrun, hfilter]
    · rw [hrun]

theorem cancel_sale_note_deletes_rows_never_restocks_witness :
    (salesByCode cancelDB "c8" ≠ [] →
      cancelSaleNote cancelDB "c8"
        = ({ cancelDB with sales := (cancelDB.sales.filter
              (fun s => decide (¬ s.saleCode = "c8"))) }, none)) ∧
    (salesByCode cancelDB "c8" = [] →
      cancelSaleNote cancelDB "c8"
        = (cancelDB, some (.notFound "sale note not found"))) ∧
    (cancelSaleNote cancelDB "c8").1.productBatches
        = cancelDB.productBatches :=
  cancel_sale_note_deletes_rows_never_restocks cancelDB "c8"
    (by decide)

/-! ### Claim C9: the recorded sale value is fixed at transaction time -/

/-- Claim C9: the monetary value written into a Sale row equals the product's
unit sale price at transaction time multiplied by the requested quantity, and
a later update of the product's sale price leaves the persisted Sale rows —
including that one — untouched. -/
theorem sale_value_fixed_at_transaction_time
    (db : DB) (r : SaleRequest) (saleId code : String) (p : ProductRow)
    (m : SaleRow)
    (hp : findProduct db r.productId = some p)
    (hm : mapRequestToModel db r saleId code = .ok m) :
    m.value = p.priceSale * r.quantity ∧
    ∀ (db1 db2 : DB) (pid : String) (newPrice : ℚ),
      saleRepoAdd db m = .ok db1 →
      productServiceUpdatePriceSale db1 pid newPrice = .ok db2 →
      (db2.sales = db1.sales ∧ m ∈ db2.sales) := by
  have hm' : m = { id := saleId, productId := r.productId, userId := r.userId,
                   quantity := r.quantity, value := p.priceSale * r.quantity,
                   isPaid := false, saleCode := code } := by
    unfold mapRequestToModel at hm
    rw [hp] at hm
    exact (Except.ok.inj hm).symm
  constructor
  · rw [hm']
  · intro db1 db2 pid newPrice h1 h2
    have hsales : db2.sales = db1.sales := by
      unfold productServiceUpdatePriceSale at h2
      cases hfp : findProduct db1 pid with
      | none =>
        rw [hfp] at h2
        exact Except.noConfusion h2
      | some q =>
        rw [hfp] at h2
        rw [← Except.ok.inj h2]
    refine ⟨hsales, ?_⟩
    rw [hsales, saleRepoAdd_sales h1]
    exact List.mem_cons_self m db.sales

theorem sale_value_fixed_at_transaction_time_witness :
    priceSaleRow.value = priceProduct.priceSale * priceRequest.quantity ∧
    ∀ (db1 db2 : DB) (pid : String) (newPrice : ℚ),
      saleRepoAdd priceDB priceSaleRow = .ok db1 →
      productServiceUpdatePriceSale db1 pid newPrice = .ok db2 →
      (db2.sales = db1.sales ∧ priceSaleRow ∈ db2.sales) :=
  sale_value_fixed_at_transaction_time priceDB priceRequest "s9" "c9"
    priceProduct priceSaleRow
    (by norm_num [findProduct, priceDB, priceProduct, priceRequest, List.find?])
    (by norm_num [mapRequestToModel, findProduct, priceDB, priceProduct,
      priceRequest, priceSaleRow, List.find?])

/-! ### Witnesses for the repository-level sale claims -/

theorem sale_insufficient_stock_rejected_witness :
    ∃ e, saleRepoAdd stockDB stockSale = .error e ∧ e.isNotFound = true ∧
      (productBatchesOf stockDB stockSale.productId ≠ [] →
        e = .notFound ERROR_NOT_ENOUGH_PRODUCT_IN_STOCK) ∧
      runTxn stockDB (saleRepoAdd stockDB stockSale)
        = (stockDB, some e) :=
  sale_insufficient_stock_rejected stockDB stockSale
    (by norm_num [findProduct, stockDB, stockProduct, stockSale, List.find?])
    (by norm_num [findUser, stockDB, stockUser, stockSale, List.find?])
    (by norm_num [totalStock, productBatchesOf, stockDB, stockBatch, stockSale,
      List.filter])

theorem sale_depletes_in_expiry_order_witness :
    List.Sorted batchLE (fetchedBatches orderDB orderSale.productId) ∧
    orderDBAfter.productBatches
      = depleteBatches orderSale.quantity (fetchedBatches orderDB orderSale.productId)
          ++ orderDB.productBatches.filter
              (fun x => decide (¬ x.productId = orderSale.productId)) ∧
    (∀ (s : ℚ) (b : ProductBatchRow) (rest : List ProductBatchRow),
      0 < s → s < b.quantity →
        depleteBatches s (b :: rest)
          = { b with quantity := b.quantity - s } :: rest) ∧
    (∀ (s : ℚ) (b : ProductBatchRow) (rest : List ProductBatchRow),
      0 < s → b.quantity ≤ s →
        depleteBatches s (b :: rest)
          = { b with quantity := 0 } :: depleteBatches (s - b.quantity) rest) ∧
    (∀ i j : ℕ, i < j →
      (depleteBatches orderSale.quantity (fetchedBatches orderDB orderSale.productId))[j]?
          ≠ (fetchedBatches orderDB orderSale.productId)[j]? →
      ((depleteBatches orderSale.quantity (fetchedBatches orderDB orderSale.productId))[i]?).map
          (fun b => b.quantity) = some 0) :=
  sale_depletes_in_expiry_order orderDB orderSale orderDBAfter
    (by norm_num [saleRepoAdd, saleLocalAdd, findProduct, findUser,
      fetchedBatches, productBatchesOf, depleteBatches, List.insertionSort,
      List.orderedInsert, orderDB, orderUser, orderProduct, orderBatchEarly,
      orderBatchLate, orderSale, orderDBAfter, List.find?, batchLE, validityLE])

theorem sales_conserve_stock_witness :
    (∀ b ∈ seqDBAfter.productBatches, 0 ≤ b.quantity) ∧
    (∀ pid, totalStock seqDBAfter pid
      = totalStock seqDB pid - soldQuantity [seqSale1, seqSale2] pid) ∧
    (∀ xs ys, [seqSale1, seqSale2] = xs ++ ys →
      ∃ dbm, applySales seqDB xs = .ok dbm ∧
        (∀ b ∈ dbm.productBatches, 0 ≤ b.quantity) ∧
        (∀ pid, totalStock dbm pid = totalStock seqDB pid - soldQuantity xs pid)) :=
  sales_conserve_stock [seqSale1, seqSale2] seqDB seqDBAfter
    (by norm_num [seqDB, seqBatch])
    (by norm_num [seqSale1, seqSale2])
    (by norm_num [applySales, saleRepoAdd, saleLocalAdd, findProduct, findUser,
      fetchedBatches, productBatchesOf, depleteBatches, List.insertionSort,
      List.orderedInsert, seqDB, seqUser, seqProduct, seqBatch, seqSale1,
      seqSale2, seqDBAfter, List.find?, batchLE, validityLE])

theorem sale_exact_stock_succeeds_witness :
    ∃ db', saleRepoAdd exactDB exactSale = .ok db' ∧
      (∀ b ∈ productBatchesOf db' exactSale.productId, b.quantity = 0) ∧
      (productBatchesOf db' exactSale.productId).length
        = (productBatchesOf exactDB exactSale.productId).length ∧
      db'.sales = exactSale :: exactDB.sales :=
  sale_exact_stock_succeeds exactDB exactSale
    (by norm_num [findProduct, exactDB, exactProduct, exactSale, List.find?])
    (by norm_num [findUser, exactDB, exactUser, exactSale, List.find?])
    (by simp [productBatchesOf, exactDB, exactBatch1, exactBatch2, exactSale])
    (by norm_num [exactDB, exactBatch1, exactBatch2])
    (by norm_num [totalStock, productBatchesOf, exactDB, exactBatch1,
      exactBatch2, exactSale, List.filter])

end Bakery
